import Mathlib

/-!
Verification of the credential and event-delivery subsystem of the
whatsapp-api gateway.

The definitions below are a shallow embedding of the JavaScript sources:

* `src/services/apikey.service.js` — API key lifecycle (create, validate,
  list, revoke, activate, delete, update, regenerate) over a JSON key store;
* `src/middlewares/auth.js` — authentication and permission middlewares;
* `src/services/whatsapp.service.js` — the event hub (`on`/`emit`) and the
  bulk send loop (`sendBulkMessages`);
* `src/routes/webhook.routes.js` — webhook registration, delivery
  (`sendWebhookNotification`) and payload normalization (`serializeData`);
* the message controller's bulk route handler — aggregation of the bulk
  outcome list into `{successful, failed}` counts.

Timestamps (ISO strings produced from `new Date()`) are modelled as `Nat`
instants supplied by the caller; the random values produced by
`crypto.randomUUID()` and `generateKey()` are modelled as explicit inputs;
strings are modelled by their character sequences.
-/

/-- JavaScript string defaulting `v || d`: `undefined`/`null` (`none`) and the
empty string are falsy and give the default. -/
def jsOrStr (v : Option String) (d : String) : String :=
  match v with
  | none => d
  | some s => if s = "" then d else s

/-- One record of the persisted key store (`data/api-keys.json`).  Field
`key` is the secret token; `ty`-style renamings are not needed here.  The JS
fields `revokedAt`, `updatedAt` and `regeneratedAt` are absent until the
corresponding operation sets them, which `Option` captures. -/
structure ApiKeyRecord where
  id : String
  key : String
  name : String
  description : String
  permissions : List String
  active : Bool
  createdAt : Nat
  expiresAt : Option Nat
  lastUsedAt : Option Nat
  usageCount : Nat
  revokedAt : Option Nat
  updatedAt : Option Nat
  regeneratedAt : Option Nat
deriving Repr, DecidableEq

/-- The persisted store: one JSON document `{keys: [...]}`. -/
structure KeyStore where
  keys : List ApiKeyRecord
deriving Repr, DecidableEq

/-- The principal returned by `validateApiKey`: the master pseudo-record
`{id:'master', name:'Master Key', permissions:['*'], isMaster:true}`, the
development-mode bypass `{isMaster:true, permissions:['*']}`, or a stored
record. -/
inductive KeyInfo where
  | master
  | devMaster
  | record (r : ApiKeyRecord)
deriving Repr, DecidableEq

/-- `keyInfo.isMaster` (truthy only on the master shapes). -/
def KeyInfo.isMaster : KeyInfo → Bool
  | .master => true
  | .devMaster => true
  | .record _ => false

/-- `keyInfo.permissions`. -/
def KeyInfo.permissions : KeyInfo → List String
  | .master => ["*"]
  | .devMaster => ["*"]
  | .record r => r.permissions

/-- Replace the first element satisfying `p` by its image under `f`;
this is the effect of `findIndex` followed by in-place mutation of
`data.keys[keyIndex]` in the JS service. -/
def modifyFirst (p : α → Bool) (f : α → α) : List α → List α
  | [] => []
  | a :: l => if p a then f a :: l else a :: modifyFirst p f l

/-- Remove the first element satisfying `p`; the effect of
`data.keys.splice(keyIndex, 1)`. -/
def removeFirst (p : α → Bool) : List α → List α
  | [] => []
  | a :: l => if p a then l else a :: removeFirst p l

/-- Options object accepted by `createApiKey`. -/
structure CreateOptions where
  name : Option String := none
  description : Option String := none
  expiresAt : Option Nat := none
  permissions : Option (List String) := none
deriving Repr, DecidableEq

/-- `createApiKey(options)`: builds the new record with defaults
(`options.name || 'API Key'`, `options.description || ''`,
`options.permissions || ['*']`, `options.expiresAt || null`, `active: true`,
`usageCount: 0`), pushes it and saves.  `uuid` and `key` stand for
`crypto.randomUUID()` and `generateKey()`. -/
def createApiKey (uuid key : String) (now : Nat) (options : CreateOptions)
    (s : KeyStore) : ApiKeyRecord × KeyStore :=
  let newKey : ApiKeyRecord :=
    { id := uuid
      key := key
      name := jsOrStr options.name "API Key"
      description := jsOrStr options.description ""
      permissions := options.permissions.getD ["*"]
      active := true
      createdAt := now
      expiresAt := options.expiresAt
      lastUsedAt := none
      usageCount := 0
      revokedAt := none
      updatedAt := none
      regeneratedAt := none }
  (newKey, ⟨s.keys ++ [newKey]⟩)

/-- `keyInfo.expiresAt && new Date(keyInfo.expiresAt) < new Date()`:
a record is expired when it has an expiry instant strictly before now. -/
def isExpired (now : Nat) (k : ApiKeyRecord) : Bool :=
  match k.expiresAt with
  | some e => decide (e < now)
  | none => false

/-- `validateApiKey(apiKey)`: master key short-circuit, then lookup of the
first record with `k.key === apiKey && k.active`; an expired match fails;
a live match gets `lastUsedAt`/`usageCount` bumped and the store saved.
`masterKey` models `process.env.API_KEY` (empty string = unset). -/
def validateApiKey (masterKey : String) (now : Nat) (apiKey : String)
    (s : KeyStore) : Option KeyInfo × KeyStore :=
  if masterKey ≠ "" ∧ apiKey = masterKey then
    (some .master, s)
  else
    match s.keys.find? (fun k => k.key == apiKey && k.active) with
    | none => (none, s)
    | some k =>
      if isExpired now k then (none, s)
      else
        (some (.record { k with lastUsedAt := some now, usageCount := k.usageCount + 1 }),
         ⟨modifyFirst (fun k => k.key == apiKey && k.active)
            (fun k => { k with lastUsedAt := some now, usageCount := k.usageCount + 1 })
            s.keys⟩)

/-- The masked presentation of a secret:
`${k.key.substring(0, 12)}...${k.key.slice(-4)}` (first 12 characters,
three dots, last 4 characters). -/
def maskKey (s : String) : String :=
  ⟨s.data.take 12 ++ ('.' :: '.' :: '.' :: []) ++ s.data.drop (s.data.length - 4)⟩

/-- Projection of a record produced by `listApiKeys` (the timed audit fields
`revokedAt`/`updatedAt`/`regeneratedAt` are not listed). -/
structure ListedKey where
  id : String
  key : String
  name : String
  description : String
  permissions : List String
  active : Bool
  createdAt : Nat
  expiresAt : Option Nat
  lastUsedAt : Option Nat
  usageCount : Nat
deriving Repr, DecidableEq

/-- `listApiKeys(includeKey = false)`: maps every stored record to its listed
view, masking the secret unless `includeKey` is passed. -/
def listApiKeys (includeKey : Bool) (s : KeyStore) : List ListedKey :=
  s.keys.map (fun k =>
    { id := k.id
      key := if includeKey then k.key else maskKey k.key
      name := k.name
      description := k.description
      permissions := k.permissions
      active := k.active
      createdAt := k.createdAt
      expiresAt := k.expiresAt
      lastUsedAt := k.lastUsedAt
      usageCount := k.usageCount })

/-- Result of the mutating service calls: `{success:false, error}` or
`{success:true, message}`. -/
inductive OpResult (α : Type) where
  | failure (error : String)
  | success (value : α)
deriving Repr, DecidableEq

/-- `revokeApiKey(id)`: first record with the id gets `active = false` and
`revokedAt` set; unknown id fails without mutation. -/
def revokeApiKey (now : Nat) (id : String) (s : KeyStore) :
    OpResult String × KeyStore :=
  match s.keys.find? (fun k => k.id == id) with
  | none => (.failure "API Key no encontrada", s)
  | some _ =>
    (.success "API Key revocada correctamente",
     ⟨modifyFirst (fun k => k.id == id)
        (fun k => { k with active := false, revokedAt := some now }) s.keys⟩)

/-- `activateApiKey(id)`: sets `active = true` and deletes `revokedAt`. -/
def activateApiKey (id : String) (s : KeyStore) : OpResult String × KeyStore :=
  match s.keys.find? (fun k => k.id == id) with
  | none => (.failure "API Key no encontrada", s)
  | some _ =>
    (.success "API Key activada correctamente",
     ⟨modifyFirst (fun k => k.id == id)
        (fun k => { k with active := true, revokedAt := none }) s.keys⟩)

/-- `deleteApiKey(id)`: splices the record out permanently. -/
def deleteApiKey (id : String) (s : KeyStore) : OpResult String × KeyStore :=
  match s.keys.find? (fun k => k.id == id) with
  | none => (.failure "API Key no encontrada", s)
  | some _ =>
    (.success "API Key eliminada permanentemente",
     ⟨removeFirst (fun k => k.id == id) s.keys⟩)

/-- The update payload.  The JS caller may pass any fields; only
`name`, `description`, `permissions`, `expiresAt` are in `allowedUpdates`,
so the other fields below are carried to show they are ignored.
`expiresAt` distinguishes absent (`none`) from an explicit null
(`some none`), since the loop tests `updates[field] !== undefined`. -/
structure UpdateFields where
  name : Option String := none
  description : Option String := none
  permissions : Option (List String) := none
  expiresAt : Option (Option Nat) := none
  key : Option String := none
  active : Option Bool := none
  usageCount : Option Nat := none
  id : Option String := none
deriving Repr, DecidableEq

/-- The `for (const field of allowedUpdates)` loop followed by the
`updatedAt` stamp. -/
def applyUpdates (u : UpdateFields) (now : Nat) (k : ApiKeyRecord) : ApiKeyRecord :=
  let k1 := match u.name with | some v => { k with name := v } | none => k
  let k2 := match u.description with | some v => { k1 with description := v } | none => k1
  let k3 := match u.permissions with | some v => { k2 with permissions := v } | none => k2
  let k4 := match u.expiresAt with | some v => { k3 with expiresAt := v } | none => k3
  { k4 with updatedAt := some now }

/-- `updateApiKey(id, updates)`: applies the allow-listed fields to the first
record with the id and returns `{success:true, data}`. -/
def updateApiKey (now : Nat) (id : String) (u : UpdateFields) (s : KeyStore) :
    OpResult ApiKeyRecord × KeyStore :=
  match s.keys.find? (fun k => k.id == id) with
  | none => (.failure "API Key no encontrada", s)
  | some k =>
    (.success (applyUpdates u now k),
     ⟨modifyFirst (fun k => k.id == id) (applyUpdates u now) s.keys⟩)

/-- Result of `regenerateApiKey`: `{success:true, message, key}` exposes the
fresh secret exactly here. -/
inductive RegenResult where
  | failure (error : String)
  | success (message : String) (key : String)
deriving Repr, DecidableEq

/-- `regenerateApiKey(id)`: swaps in the freshly generated secret (`newKey`
stands for `generateKey()`), stamps `regeneratedAt`, and returns the new
secret once. -/
def regenerateApiKey (newKey : String) (now : Nat) (id : String) (s : KeyStore) :
    RegenResult × KeyStore :=
  match s.keys.find? (fun k => k.id == id) with
  | none => (.failure "API Key no encontrada", s)
  | some _ =>
    (.success "API Key regenerada correctamente" newKey,
     ⟨modifyFirst (fun k => k.id == id)
        (fun k => { k with key := newKey, regeneratedAt := some now }) s.keys⟩)

/-- An HTTP error response produced by the middlewares:
`res.status(status).json({success:false, error, code})`. -/
structure HttpResponse where
  status : Nat
  success : Bool
  error : String
  code : String
deriving Repr, DecidableEq

/-- Outcome of a middleware: either it responds and stops the chain, or it
attaches `req.apiKeyInfo` and calls `next()`. -/
inductive AuthOutcome where
  | respond (r : HttpResponse)
  | proceed (info : KeyInfo)
deriving Repr, DecidableEq

/-- The fixed 401 response for a missing key. -/
def missingKeyResponse : HttpResponse :=
  { status := 401, success := false, error := "API Key requerida", code := "MISSING_API_KEY" }

/-- The fixed 403 response for an invalid key: `validateApiKey` returning
null always produces exactly this response. -/
def invalidKeyResponse : HttpResponse :=
  { status := 403, success := false
    error := "API Key inválida o expirada", code := "INVALID_API_KEY" }

/-- `apiKeyAuth(req, res, next)` from `src/middlewares/auth.js`:
development bypass when no master key is configured, 401 on a falsy header,
delegation to `validateApiKey`, 403 on a null result.  The store is threaded
because validation bumps usage counters. -/
def apiKeyAuth (masterKey nodeEnv : String) (now : Nat) (header : Option String)
    (s : KeyStore) : AuthOutcome × KeyStore :=
  if masterKey = "" ∧ nodeEnv = "development" then
    (.proceed .devMaster, s)
  else
    match header with
    | none => (.respond missingKeyResponse, s)
    | some apiKey =>
      if apiKey = "" then (.respond missingKeyResponse, s)
      else
        match validateApiKey masterKey now apiKey s with
        | (none, s') => (.respond invalidKeyResponse, s')
        | (some info, s') => (.proceed info, s')

/-- The fixed 401 response of `requirePermission` when no key info is on the
request. -/
def notAuthenticatedResponse : HttpResponse :=
  { status := 401, success := false, error := "No autenticado", code := "NOT_AUTHENTICATED" }

/-- The fixed 403 response of `requirePermission` on a failed check. -/
def insufficientPermissionsResponse : HttpResponse :=
  { status := 403, success := false
    error := "Permisos insuficientes", code := "INSUFFICIENT_PERMISSIONS" }

/-- Middleware decision of `requirePermission`: pass (`next()`) or respond. -/
inductive AuthDecision where
  | respond (r : HttpResponse)
  | proceed
deriving Repr, DecidableEq

/-- `requirePermission(requiredPermissions)` from `src/middlewares/auth.js`:
master or wildcard passes; otherwise some required permission must be held.
The string-or-array normalization is modelled by taking the list. -/
def requirePermission (keyInfo : Option KeyInfo) (required : List String) :
    AuthDecision :=
  match keyInfo with
  | none => .respond notAuthenticatedResponse
  | some info =>
    if info.isMaster || info.permissions.contains "*" then .proceed
    else if required.any (fun p => info.permissions.contains p) then .proceed
    else .respond insufficientPermissionsResponse

/-!
Event hub of `whatsapp.service.js`.  `eventHandlers` is a map from event
name to the list of handlers in registration order; `emit` runs
`handlers.forEach(handler => handler(data))`.  A handler is a function that
either returns a value or throws (`Except.error`); `forEach` propagates a
synchronous throw, so handlers after the throwing one are not invoked.
-/

/-- The handler lists for one event bus, keyed by event name. -/
abbrev EventBus (α ε σ : Type) := List (String × List (α → Except ε σ))

/-- `handlers.forEach(handler => handler(data))`: returns the list of
results of the invoked handlers, in invocation order, together with the
flag telling whether a thrown exception escaped (aborting the loop). -/
def runForEach {α ε σ : Type} (data : α) : List (α → Except ε σ) → List (Except ε σ) × Bool
  | [] => ([], false)
  | h :: t =>
    match h data with
    | .error e => ([Except.error e], true)
    | .ok v =>
      let r := runForEach data t
      (Except.ok v :: r.1, r.2)

/-- `this.eventHandlers.get(event) || []`. -/
def handlersFor (bus : EventBus α ε σ) (event : String) : List (α → Except ε σ) :=
  (bus.lookup event).getD []

/-- `WhatsAppService.emit(event, data)`. -/
def emit (bus : EventBus α ε σ) (event : String) (data : α) :
    List (Except ε σ) × Bool :=
  runForEach data (handlersFor bus event)

/-- `WhatsAppService.on(event, handler)`: appends the handler to the list
for the event (creating the list on first use). -/
def onEvent (bus : EventBus α ε σ) (event : String) (h : α → Except ε σ) :
    EventBus α ε σ :=
  match bus.lookup event with
  | none => bus ++ [(event, [h])]
  | some _ => bus.map (fun p => if p.1 == event then (p.1, p.2 ++ [h]) else p)

/-!
Webhook registry and delivery, from `src/routes/webhook.routes.js`.
-/

/-- A registration stored in the in-memory `webhooks` map. -/
structure Webhook where
  id : String
  url : String
  events : List String
  secret : Option String
  createdAt : Nat
  active : Bool
deriving Repr, DecidableEq

/-- A message payload from the external driver.  `sender`/`recipient` model the JS
`from`/`to` fields (`from` and `to` are reserved in Lean); `ty` models `type`;
`internals` stands for the driver-internal fields that the normalization
step must not leak. -/
structure WMessage where
  id : Option String
  sender : String
  recipient : String
  body : String
  timestamp : Nat
  ty : String
  isForwarded : Bool
  hasMedia : Bool
  internals : String
deriving Repr, DecidableEq

/-- The payload handed to `serializeData`: falsy, a chat message
(`data.body !== undefined && data.from !== undefined`), or any other shape. -/
inductive WData where
  | jnull
  | wmsg (m : WMessage)
  | other (s : String)
deriving Repr, DecidableEq

/-- The normalized `data` member of the delivered envelope. -/
inductive SerData where
  | jnull
  | msgView (id : Option String) (sender recipient body : String) (timestamp : Nat)
      (ty : String) (isForwarded hasMedia : Bool)
  | passthrough (s : String)
deriving Repr, DecidableEq

/-- `serializeData(data)`: null for falsy input, the stable field subset for
message-shaped input (dropping `internals`), pass-through otherwise. -/
def serializeData : WData → SerData
  | .jnull => .jnull
  | .wmsg m => .msgView m.id m.sender m.recipient m.body m.timestamp m.ty m.isForwarded m.hasMedia
  | .other s => .passthrough s

/-- The envelope `{event, timestamp, data}` built by
`sendWebhookNotification` before serialization. -/
structure Envelope where
  event : String
  timestamp : Nat
  data : SerData
deriving Repr, DecidableEq

/-- JS truthiness of an optional string (`if (webhook.secret)`). -/
def jsTruthyStr : Option String → Bool
  | none => false
  | some s => s ≠ ""

/-- The outgoing POST built by `sendWebhookNotification`: the body is
`JSON.stringify(payload)` and the `X-Webhook-Signature` header, present only
for a truthy secret, is the hex HMAC-SHA256 of that same serialized string.
`hmacHex key msg` models `crypto.createHmac('sha256', key).update(msg).digest('hex')`
and `stringify` models `JSON.stringify` (a pure function of the envelope). -/
structure DeliveryRequest where
  body : String
  signature : Option String
  eventHeader : String
deriving Repr, DecidableEq

/-- `sendWebhookNotification(webhook, event, data)` up to the transport
boundary (the actual `fetch` outcome is logged and swallowed). -/
def sendWebhookNotification (hmacHex : String → String → String)
    (stringify : Envelope → String) (now : Nat) (wh : Webhook) (event : String)
    (data : WData) : DeliveryRequest :=
  let payload : Envelope := { event := event, timestamp := now, data := serializeData data }
  let body := stringify payload
  { body := body
    signature :=
      if jsTruthyStr wh.secret then some (hmacHex (wh.secret.getD "") body) else none
    eventHeader := event }

/-- The `try { ... } catch (error) { logger.error(...) }` wrapper of the
forwarding callback: a thrown delivery error is logged and swallowed. -/
def tryCatchLog {ε : Type} (act : Except ε Unit) : Except ε Unit :=
  match act with
  | .error _ => Except.ok ()
  | .ok _ => Except.ok ()

/-- The forwarding callback registered per event by `POST /register`:
it resolves the registration by id at delivery time from the `webhooks`
map, delivers only when present and active, and catches every error.
`deliver` models `sendWebhookNotification`'s transport effect, which may
fail. -/
def forwardingCallback (registry : List (String × Webhook)) (webhookId : String)
    (deliver : Webhook → WData → Except String Unit) (data : WData) :
    Except String Unit :=
  tryCatchLog
    (match registry.lookup webhookId with
     | some webhook => if webhook.active then deliver webhook data else Except.ok ()
     | none => Except.ok ())

/-- State owned by `webhook.routes.js`: the `webhooks` map plus the
subscriptions added on the WhatsApp service (event name paired with the id
of the registration whose forwarding callback was subscribed, in
registration order). -/
structure WebhookState where
  webhooks : List (String × Webhook)
  subs : List (String × String)
deriving Repr, DecidableEq

/-- Response of `POST /api/webhooks/register`. -/
structure RegisterResponse where
  status : Nat
  success : Bool
  webhookId : Option String
deriving Repr, DecidableEq

/-- The closed event vocabulary of the API
(`enum: [message, qr, ready, disconnected, authenticated]`). -/
def eventVocabulary : List String :=
  ["message", "qr", "ready", "disconnected", "authenticated"]

/-- `POST /register`: the express-validator chain checks only
`body('url').isURL()` and `body('events').isArray({ min: 1 })`; on success
the registration is stored under `wh_${Date.now()}` with `active: true` and
one forwarding callback is subscribed per listed event.  `urlValid` is the
outcome of the library's `isURL` check on the submitted url. -/
def registerWebhook (urlValid : Bool) (now : Nat) (url : String)
    (events : List String) (secret : Option String) (st : WebhookState) :
    RegisterResponse × WebhookState :=
  if !(urlValid && decide (1 ≤ events.length)) then
    ({ status := 400, success := false, webhookId := none }, st)
  else
    let webhookId := "wh_" ++ toString now
    let wh : Webhook :=
      { id := webhookId, url := url, events := events, secret := secret
        createdAt := now, active := true }
    ({ status := 201, success := true, webhookId := some webhookId },
     { webhooks := st.webhooks ++ [(webhookId, wh)]
       subs := st.subs ++ events.map (fun e => (e, webhookId)) })

/-!
Bulk send loop, from `WhatsAppService.sendBulkMessages`.
-/

/-- One element of the `results` array: `{phone, ...result, success:true}`
on success (the spread fields are not claim-relevant) and
`{phone, success:false, error: error.message}` on a caught failure. -/
structure BulkOutcome where
  phone : String
  success : Bool
  error : Option String
deriving Repr, DecidableEq

/-- The loop body of `sendBulkMessages` over the remaining recipients.
`all` is the full `recipients` array, needed because the inter-message wait
is guarded by `recipients.indexOf(phone) < recipients.length - 1`.  The
second component counts how many times `sleep(delay)` was awaited. -/
def bulkLoop (send : String → Except String Unit) (all : List String) :
    List String → List BulkOutcome × Nat
  | [] => ([], 0)
  | phone :: rest =>
    let outcome : BulkOutcome :=
      match send phone with
      | .ok _ => { phone := phone, success := true, error := none }
      | .error e => { phone := phone, success := false, error := some e }
    let sleeps := if all.indexOf phone < all.length - 1 then 1 else 0
    let r := bulkLoop send all rest
    (outcome :: r.1, sleeps + r.2)

/-- `sendBulkMessages(recipients, message, options)`: sequential sends with
per-recipient failure capture; returns the ordered outcome list and the
number of awaited delays.  `send` models `this.sendMessage(phone, message,
options)` for the fixed message. -/
def sendBulkMessages (send : String → Except String Unit)
    (recipients : List String) : List BulkOutcome × Nat :=
  bulkLoop send recipients recipients

/-- The aggregate counts computed by the bulk-send route handler
(`sendBulkMessages` in the message controller):
`successful = results.filter(r => r.success).length` and
`failed = results.filter(r => !r.success).length`, returned in the
response alongside the outcome list (e.g. `{successful:2, failed:1}` for
three recipients with one failure). -/
def bulkAggregate (results : List BulkOutcome) : Nat × Nat :=
  ((results.filter (fun o => o.success)).length,
   (results.filter (fun o => !o.success)).length)

/-- The operations exported by `apikey.service.js`, as state transitions on
the key store.  Randomness (`crypto.randomUUID()`, `generateKey()`) and the
clock are explicit arguments. -/
inductive Op where
  | create (uuid key : String) (now : Nat) (o : CreateOptions)
  | validate (masterKey : String) (now : Nat) (apiKey : String)
  | update (now : Nat) (id : String) (u : UpdateFields)
  | revoke (now : Nat) (id : String)
  | activate (id : String)
  | regenerate (newKey : String) (now : Nat) (id : String)
  | delete (id : String)
deriving Repr, DecidableEq

/-- The store after one service call. -/
def applyOp : Op → KeyStore → KeyStore
  | .create uuid key now o, s => (createApiKey uuid key now o s).2
  | .validate masterKey now apiKey, s => (validateApiKey masterKey now apiKey s).2
  | .update now id u, s => (updateApiKey now id u s).2
  | .revoke now id, s => (revokeApiKey now id s).2
  | .activate id, s => (activateApiKey id s).2
  | .regenerate newKey now id, s => (regenerateApiKey newKey now id s).2
  | .delete id, s => (deleteApiKey id s).2

/-- Concrete fixture: a store holding one revoked record with secret
`badkey`. -/
def storeInactive : KeyStore :=
  ⟨[{ id := "i1", key := "badkey", name := "n", description := "",
      permissions := ["*"], active := true, createdAt := 0, expiresAt := none,
      lastUsedAt := none, usageCount := 0, revokedAt := none, updatedAt := none,
      regeneratedAt := none }]⟩ |> fun s => (revokeApiKey 1 "i1" s).2

/-- Concrete fixture: a record that is active but expired at instant 5
(`expiresAt = 3`). -/
def recExpired : ApiKeyRecord :=
  { id := "i2", key := "expkey", name := "n", description := "",
    permissions := ["*"], active := true, createdAt := 0, expiresAt := some 3,
    lastUsedAt := none, usageCount := 0, revokedAt := none, updatedAt := none,
    regeneratedAt := none }

/-- Concrete fixture: a store holding only `recExpired`. -/
def storeExpired : KeyStore := ⟨[recExpired]⟩

/-- Concrete fixture: a live (active, unexpired) record with a 22-character
secret. -/
def recLive : ApiKeyRecord :=
  { id := "id1", key := "wapi_oldkey_0123456789", name := "prod key",
    description := "", permissions := ["*"], active := true, createdAt := 0,
    expiresAt := none, lastUsedAt := none, usageCount := 0, revokedAt := none,
    updatedAt := none, regeneratedAt := none }

/-- Concrete fixture: a store holding only `recLive`. -/
def storeLive : KeyStore := ⟨[recLive]⟩

/-!
Helper lemmas about the list operations underlying the store mutations.
-/

theorem mem_modifyFirst {α : Type} {p : α → Bool} {f : α → α} {l : List α} {x : α}
    (hx : x ∈ modifyFirst p f l) : x ∈ l ∨ ∃ y, y ∈ l ∧ x = f y := by
  induction l with
  | nil => simp [modifyFirst] at hx
  | cons a l ih =>
    cases hp : p a with
    | true =>
      simp [modifyFirst, hp] at hx
      rcases hx with rfl | hx
      · exact Or.inr ⟨a, List.mem_cons_self a l, rfl⟩
      · exact Or.inl (List.mem_cons_of_mem _ hx)
    | false =>
      simp [modifyFirst, hp] at hx
      rcases hx with rfl | hx
      · exact Or.inl (List.mem_cons_self _ _)
      · rcases ih hx with h | ⟨y, hy, hxy⟩
        · exact Or.inl (List.mem_cons_of_mem _ h)
        · exact Or.inr ⟨y, List.mem_cons_of_mem _ hy, hxy⟩

theorem mem_removeFirst {α : Type} {p : α → Bool} {l : List α} {x : α}
    (hx : x ∈ removeFirst p l) : x ∈ l := by
  induction l with
  | nil => simp [removeFirst] at hx
  | cons a l ih =>
    cases hp : p a with
    | true =>
      simp [removeFirst, hp] at hx
      exact List.mem_cons_of_mem _ hx
    | false =>
      simp [removeFirst, hp] at hx
      rcases hx with rfl | hx
      · exact List.mem_cons_self _ _
      · exact List.mem_cons_of_mem _ (ih hx)

theorem map_modifyFirst {α β : Type} (g : α → β) (p : α → Bool) (f : α → α)
    (hgf : ∀ a, g (f a) = g a) (l : List α) :
    (modifyFirst p f l).map g = l.map g := by
  induction l with
  | nil => rfl
  | cons a l ih => cases hp : p a <;> simp [modifyFirst, hp, ih, hgf]

theorem find?_decomp {α : Type} {p : α → Bool} {l : List α} {a : α}
    (h : l.find? p = some a) (f : α → α) :
    ∃ l₁ l₂, l = l₁ ++ a :: l₂ ∧ (∀ x ∈ l₁, p x = false) ∧ p a = true ∧
      modifyFirst p f l = l₁ ++ f a :: l₂ := by
  induction l with
  | nil => simp [List.find?] at h
  | cons b l ih =>
    cases hp : p b with
    | true =>
      rw [List.find?_cons_of_pos _ hp] at h
      injection h with h
      subst h
      exact ⟨[], l, rfl, by simp, hp, by simp [modifyFirst, hp]⟩
    | false =>
      rw [List.find?_cons_of_neg _ (by simp [hp])] at h
      obtain ⟨l₁, l₂, rfl, hpre, hpa, hmod⟩ := ih h
      refine ⟨b :: l₁, l₂, rfl, ?_, hpa, ?_⟩
      · intro x hx
        rcases List.mem_cons.mp hx with rfl | hx
        · exact hp
        · exact hpre x hx
      · simp [modifyFirst, hp, hmod]

theorem find?_append_of_forall_neg {α : Type} {p : α → Bool} {l₁ : List α}
    (h : ∀ x ∈ l₁, p x = false) (l₂ : List α) :
    (l₁ ++ l₂).find? p = l₂.find? p := by
  induction l₁ with
  | nil => rfl
  | cons a l ih =>
    have ha := h a (List.mem_cons_self a l)
    rw [List.cons_append, List.find?_cons_of_neg _ (by simp [ha])]
    exact ih (fun x hx => h x (List.mem_cons_of_mem _ hx))

theorem maskKey_ne_self {s : String} (h : 19 < s.length) : maskKey s ≠ s := by
  intro he
  have hd : (maskKey s).data = s.data := congrArg String.data he
  have hn : s.length = s.data.length := by cases s; rfl
  have hlen := congrArg List.length hd
  simp [maskKey, List.length_append, List.length_take, List.length_drop] at hlen
  rw [hn] at h
  omega

theorem applyUpdates_preserves (u : UpdateFields) (now : Nat) (k : ApiKeyRecord) :
    (applyUpdates u now k).key = k.key ∧ (applyUpdates u now k).id = k.id ∧
    (applyUpdates u now k).active = k.active ∧
    (applyUpdates u now k).usageCount = k.usageCount ∧
    (applyUpdates u now k).createdAt = k.createdAt ∧
    (applyUpdates u now k).lastUsedAt = k.lastUsedAt ∧
    (applyUpdates u now k).revokedAt = k.revokedAt ∧
    (applyUpdates u now k).regeneratedAt = k.regeneratedAt := by
  obtain ⟨n, d, pm, e, _, _, _, _⟩ := u
  unfold applyUpdates
  cases n <;> cases d <;> cases pm <;> cases e <;> simp

/-- C7: `updateApiKey(id, updates)` changes at most the allow-listed fields
`name`, `description`, `permissions`, `expiresAt` (plus the `updatedAt`
stamp): whatever fields the caller passes, every record's `key` (secret),
`id`, `active` flag, `usageCount`, `createdAt`, `lastUsedAt`, `revokedAt`
and `regeneratedAt` are exactly as before the call. -/
theorem update_touches_only_allowed_fields (now : Nat) (id : String)
    (u : UpdateFields) (s : KeyStore) :
    ((updateApiKey now id u s).2).keys.map (fun k => k.key) = s.keys.map (fun k => k.key) ∧
    ((updateApiKey now id u s).2).keys.map (fun k => k.id) = s.keys.map (fun k => k.id) ∧
    ((updateApiKey now id u s).2).keys.map (fun k => k.active) = s.keys.map (fun k => k.active) ∧
    ((updateApiKey now id u s).2).keys.map (fun k => k.usageCount) = s.keys.map (fun k => k.usageCount) ∧
    ((updateApiKey now id u s).2).keys.map (fun k => k.createdAt) = s.keys.map (fun k => k.createdAt) ∧
    ((updateApiKey now id u s).2).keys.map (fun k => k.lastUsedAt) = s.keys.map (fun k => k.lastUsedAt) ∧
    ((updateApiKey now id u s).2).keys.map (fun k => k.revokedAt) = s.keys.map (fun k => k.revokedAt) ∧
    ((updateApiKey now id u s).2).keys.map (fun k => k.regeneratedAt) = s.keys.map (fun k => k.regeneratedAt) := by
  cases hf : s.keys.find? (fun k => k.id == id) with
  | none => simp [updateApiKey, hf]
  | some k =>
    simp only [updateApiKey, hf]
    exact ⟨map_modifyFirst _ _ _ (fun a => (applyUpdates_preserves u now a).1) s.keys,
      map_modifyFirst _ _ _ (fun a => (applyUpdates_preserves u now a).2.1) s.keys,
      map_modifyFirst _ _ _ (fun a => (applyUpdates_preserves u now a).2.2.1) s.keys,
      map_modifyFirst _ _ _ (fun a => (applyUpdates_preserves u now a).2.2.2.1) s.keys,
      map_modifyFirst _ _ _ (fun a => (applyUpdates_preserves u now a).2.2.2.2.1) s.keys,
      map_modifyFirst _ _ _ (fun a => (applyUpdates_preserves u now a).2.2.2.2.2.1) s.keys,
      map_modifyFirst _ _ _ (fun a => (applyUpdates_preserves u now a).2.2.2.2.2.2.1) s.keys,
      map_modifyFirst _ _ _ (fun a => (applyUpdates_preserves u now a).2.2.2.2.2.2.2) s.keys⟩

/-- C10: a `createApiKey` call whose options omit `permissions` yields the
wildcard permission set `['*']`, so the new key passes `requirePermission`
for every required permission list; an omitted `description` defaults to
the empty string and an omitted `name` to `'API Key'`. -/
theorem create_defaults (uuid key : String) (now : Nat) (o : CreateOptions)
    (s : KeyStore) (hp : o.permissions = none) (hd : o.description = none) :
    ((createApiKey uuid key now o s).1).permissions = ["*"] ∧
    ((createApiKey uuid key now o s).1).description = "" ∧
    (o.name = none → ((createApiKey uuid key now o s).1).name = "API Key") ∧
    ∀ required, requirePermission (some (KeyInfo.record (createApiKey uuid key now o s).1))
      required = AuthDecision.proceed := by
  refine ⟨by simp [createApiKey, hp], by simp [createApiKey, hd, jsOrStr], ?_, ?_⟩
  · intro hn
    simp [createApiKey, hn, jsOrStr]
  · intro required
    simp [requirePermission, createApiKey, hp, KeyInfo.isMaster, KeyInfo.permissions]

theorem create_defaults_witness :
    (({ name := some "t" } : CreateOptions).permissions = none ∧
     ({ name := some "t" } : CreateOptions).description = none) ∧
    (((createApiKey "u1" "k1" 0 { name := some "t" } ⟨[]⟩).1).permissions = ["*"] ∧
     ((createApiKey "u1" "k1" 0 { name := some "t" } ⟨[]⟩).1).description = "" ∧
     (({ name := some "t" } : CreateOptions).name = none →
       ((createApiKey "u1" "k1" 0 { name := some "t" } ⟨[]⟩).1).name = "API Key") ∧
     ∀ required, requirePermission
       (some (KeyInfo.record (createApiKey "u1" "k1" 0 { name := some "t" } ⟨[]⟩).1))
       required = AuthDecision.proceed) :=
  ⟨⟨rfl, rfl⟩, create_defaults "u1" "k1" 0 { name := some "t" } ⟨[]⟩ rfl rfl⟩

/-- C1: a supplied credential that is not the master key and matches no
stored record, or only records that are inactive or expired, fails
uniformly: `validateApiKey` returns the same `null` in all three cases, the
store is untouched, and the middleware answers with the one fixed
403 `INVALID_API_KEY` response, so the caller cannot tell the cases apart. -/
theorem invalidCredential_uniform (masterKey nodeEnv : String) (now : Nat)
    (apiKey : String) (s : KeyStore)
    (hne : apiKey ≠ "") (hm : apiKey ≠ masterKey) (hmk : masterKey ≠ "")
    (hbad : ∀ k ∈ s.keys, k.key = apiKey → k.active = false ∨ isExpired now k = true) :
    validateApiKey masterKey now apiKey s = (none, s) ∧
    apiKeyAuth masterKey nodeEnv now (some apiKey) s =
      (AuthOutcome.respond invalidKeyResponse, s) := by
  have hval : validateApiKey masterKey now apiKey s = (none, s) := by
    unfold validateApiKey
    rw [if_neg (by tauto)]
    cases hfind : s.keys.find? (fun k => k.key == apiKey && k.active) with
    | none => rfl
    | some k =>
      have hk := List.find?_some hfind
      have hmem := List.mem_of_find?_eq_some hfind
      simp only [Bool.and_eq_true, beq_iff_eq] at hk
      rcases hbad k hmem hk.1 with hact | hexp
      · rw [hk.2] at hact
        cases hact
      · simp [hexp]
  refine ⟨hval, ?_⟩
  unfold apiKeyAuth
  rw [if_neg (by tauto)]
  simp [hne, hval]

theorem invalidCredential_uniform_witness :
    (("badkey" : String) ≠ "" ∧ ("badkey" : String) ≠ "master" ∧
     ("master" : String) ≠ "" ∧
     (∀ k ∈ storeInactive.keys, k.key = "badkey" →
        k.active = false ∨ isExpired 5 k = true)) ∧
    (validateApiKey "master" 5 "badkey" storeInactive = (none, storeInactive) ∧
     apiKeyAuth "master" "production" 5 (some "badkey") storeInactive =
       (AuthOutcome.respond invalidKeyResponse, storeInactive)) :=
  ⟨⟨by decide, by decide, by decide, by decide⟩,
   invalidCredential_uniform "master" "production" 5 "badkey" storeInactive
     (by decide) (by decide) (by decide) (by decide)⟩

theorem inactive_source_of_modifyFirst {p : ApiKeyRecord → Bool}
    {f : ApiKeyRecord → ApiKeyRecord}
    {l : List ApiKeyRecord} {r' : ApiKeyRecord}
    (hr' : r' ∈ modifyFirst p f l) (hact : r'.active = false)
    (hf : ∀ a, (f a).id = a.id ∧ (f a).active = a.active ∨ (f a).active = true) :
    ∃ r₀ ∈ l, r₀.id = r'.id ∧ r₀.active = false := by
  rcases mem_modifyFirst hr' with h | ⟨y, hy, rfl⟩
  · exact ⟨r', h, rfl, hact⟩
  · rcases hf y with ⟨hid, hac⟩ | htrue
    · exact ⟨y, hy, hid.symm, by rw [← hac]; exact hact⟩
    · rw [htrue] at hact
      cases hact

theorem inactive_has_inactive_source (op : Op) (s₀ : KeyStore)
    (hop : ∀ t i, op ≠ Op.revoke t i) :
    ∀ r' ∈ (applyOp op s₀).keys, r'.active = false →
      ∃ r₀ ∈ s₀.keys, r₀.id = r'.id ∧ r₀.active = false := by
  intro r' hr' hact
  cases op with
  | create uuid key n o =>
    simp only [applyOp, createApiKey, List.mem_append] at hr'
    rcases hr' with h | h
    · exact ⟨r', h, rfl, hact⟩
    · simp only [List.mem_singleton] at h
      subst h
      simp at hact
  | validate mk n a =>
    simp only [applyOp, validateApiKey] at hr'
    by_cases hmc : mk ≠ "" ∧ a = mk
    · rw [if_pos hmc] at hr'
      exact ⟨r', hr', rfl, hact⟩
    · rw [if_neg hmc] at hr'
      cases hfind : s₀.keys.find? (fun k => k.key == a && k.active) with
      | none =>
        rw [hfind] at hr'
        exact ⟨r', hr', rfl, hact⟩
      | some k =>
        rw [hfind] at hr'
        dsimp only at hr'
        by_cases he : isExpired n k = true
        · rw [if_pos he] at hr'
          exact ⟨r', hr', rfl, hact⟩
        · rw [if_neg he] at hr'
          dsimp only at hr'
          exact inactive_source_of_modifyFirst hr' hact (fun a => Or.inl ⟨rfl, rfl⟩)
  | update n i u =>
    simp only [applyOp, updateApiKey] at hr'
    cases hfind : s₀.keys.find? (fun k => k.id == i) with
    | none =>
      rw [hfind] at hr'
      exact ⟨r', hr', rfl, hact⟩
    | some k =>
      rw [hfind] at hr'
      dsimp only at hr'
      exact inactive_source_of_modifyFirst hr' hact
        (fun a => Or.inl ⟨(applyUpdates_preserves u n a).2.1,
          (applyUpdates_preserves u n a).2.2.1⟩)
  | revoke t i => exact absurd rfl (hop t i)
  | activate i =>
    simp only [applyOp, activateApiKey] at hr'
    cases hfind : s₀.keys.find? (fun k => k.id == i) with
    | none =>
      rw [hfind] at hr'
      exact ⟨r', hr', rfl, hact⟩
    | some k =>
      rw [hfind] at hr'
      dsimp only at hr'
      exact inactive_source_of_modifyFirst hr' hact (fun a => Or.inr rfl)
  | regenerate nk n i =>
    simp only [applyOp, regenerateApiKey] at hr'
    cases hfind : s₀.keys.find? (fun k => k.id == i) with
    | none =>
      rw [hfind] at hr'
      exact ⟨r', hr', rfl, hact⟩
    | some k =>
      rw [hfind] at hr'
      dsimp only at hr'
      exact inactive_source_of_modifyFirst hr' hact (fun a => Or.inl ⟨rfl, rfl⟩)
  | delete i =>
    simp only [applyOp, deleteApiKey] at hr'
    cases hfind : s₀.keys.find? (fun k => k.id == i) with
    | none =>
      rw [hfind] at hr'
      exact ⟨r', hr', rfl, hact⟩
    | some k =>
      rw [hfind] at hr'
      dsimp only at hr'
      exact ⟨r', mem_removeFirst hr', rfl, hact⟩

/-- C3: `active = false` arises only from an explicit `revokeApiKey` — every
other service operation leaves an inactive record traceable to an already
inactive record with the same id (in particular, evaluating expiry during
validation never clears the flag) — and `validateApiKey` on a credential
whose first active match is expired fails even though `active = true`,
returning the store unchanged. -/
theorem inactive_only_by_revoke_and_expired_fails
    (masterKey : String) (now : Nat) (apiKey : String) (s : KeyStore)
    (r : ApiKeyRecord) (hm : apiKey ≠ masterKey)
    (hfind : s.keys.find? (fun k => k.key == apiKey && k.active) = some r)
    (hexp : isExpired now r = true) :
    validateApiKey masterKey now apiKey s = (none, s) ∧
    ∀ (op : Op) (s₀ : KeyStore), (∀ t i, op ≠ Op.revoke t i) →
      ∀ r' ∈ (applyOp op s₀).keys, r'.active = false →
        ∃ r₀ ∈ s₀.keys, r₀.id = r'.id ∧ r₀.active = false := by
  constructor
  · unfold validateApiKey
    rw [if_neg (by tauto), hfind]
    dsimp only
    rw [if_pos hexp]
  · exact fun op s₀ hop => inactive_has_inactive_source op s₀ hop

theorem inactive_only_by_revoke_and_expired_fails_witness :
    (("expkey" : String) ≠ "master" ∧
     storeExpired.keys.find? (fun k => k.key == "expkey" && k.active) =
       some recExpired ∧
     isExpired 5 recExpired = true) ∧
    (validateApiKey "master" 5 "expkey" storeExpired = (none, storeExpired) ∧
     ∀ (op : Op) (s₀ : KeyStore), (∀ t i, op ≠ Op.revoke t i) →
       ∀ r' ∈ (applyOp op s₀).keys, r'.active = false →
         ∃ r₀ ∈ s₀.keys, r₀.id = r'.id ∧ r₀.active = false) :=
  ⟨⟨by decide, by decide, by decide⟩,
   inactive_only_by_revoke_and_expired_fails "master" 5 "expkey" storeExpired
     recExpired (by decide) (by decide) (by decide)⟩

/-- C2: after `regenerateApiKey(id)` on a live record with secret `r.key`,
the call returns the fresh secret exactly once in its result, the record
keeps its id, the old secret no longer validates (uniform `null`, store
untouched by the failed validation) while the fresh secret does validate,
and listing exposes only the masked `first12...last4` form, which differs
from the full secret. -/
theorem regenerate_invalidates_old_secret
    (masterKey newKey : String) (now : Nat) (id : String) (s : KeyStore)
    (r : ApiKeyRecord)
    (hfind : s.keys.find? (fun k => k.id == id) = some r)
    (hact : r.active = true)
    (hexp : isExpired now r = false)
    (hnodup : (s.keys.map (fun k => k.key)).Nodup)
    (hfresh : newKey ∉ s.keys.map (fun k => k.key))
    (hmold : r.key ≠ masterKey)
    (hmnew : newKey ≠ masterKey)
    (hlen : 19 < newKey.length) :
    (regenerateApiKey newKey now id s).1 =
      RegenResult.success "API Key regenerada correctamente" newKey ∧
    ((regenerateApiKey newKey now id s).2).keys.map (fun k => k.id) =
      s.keys.map (fun k => k.id) ∧
    ((regenerateApiKey newKey now id s).2).keys.find? (fun k => k.id == id) =
      some { r with key := newKey, regeneratedAt := some now } ∧
    validateApiKey masterKey now r.key (regenerateApiKey newKey now id s).2 =
      (none, (regenerateApiKey newKey now id s).2) ∧
    (validateApiKey masterKey now newKey (regenerateApiKey newKey now id s).2).1.isSome = true ∧
    (listApiKeys false (regenerateApiKey newKey now id s).2).map (fun e => e.key) =
      ((regenerateApiKey newKey now id s).2).keys.map (fun k => maskKey k.key) ∧
    maskKey newKey ≠ newKey := by
  obtain ⟨l₁, l₂, hdecomp, hpre, hpa, hmod⟩ :=
    find?_decomp hfind (fun k => { k with key := newKey, regeneratedAt := some now })
  have hrmem : r ∈ s.keys := List.mem_of_find?_eq_some hfind
  have hkey_ne_new : ∀ x ∈ s.keys, x.key ≠ newKey := by
    intro x hx he
    exact hfresh (he ▸ List.mem_map_of_mem (fun k => k.key) hx)
  have hmem₁ : ∀ x ∈ l₁, x ∈ s.keys := by
    intro x hx
    rw [hdecomp]
    exact List.mem_append_left _ hx
  have hmem₂ : ∀ x ∈ l₂, x ∈ s.keys := by
    intro x hx
    rw [hdecomp]
    exact List.mem_append_right _ (List.mem_cons_of_mem _ hx)
  have hnodup' := hnodup
  rw [hdecomp, List.map_append, List.map_cons] at hnodup'
  have hsplit := List.nodup_append.mp hnodup'
  have hA : ∀ x ∈ l₁, x.key ≠ r.key := by
    intro x hx he
    exact hsplit.2.2 (List.mem_map_of_mem (fun k => k.key) hx)
      (he ▸ List.mem_cons_self _ _)
  have hB : ∀ x ∈ l₂, x.key ≠ r.key := by
    intro x hx he
    exact (List.nodup_cons.mp hsplit.2.1).1
      (he ▸ List.mem_map_of_mem (fun k => k.key) hx)
  have hrknew : r.key ≠ newKey := hkey_ne_new r hrmem
  have hfst : (regenerateApiKey newKey now id s).1 =
      RegenResult.success "API Key regenerada correctamente" newKey := by
    unfold regenerateApiKey
    rw [hfind]
  have hsnd : (regenerateApiKey newKey now id s).2 =
      ⟨l₁ ++ { r with key := newKey, regeneratedAt := some now } :: l₂⟩ := by
    unfold regenerateApiKey
    rw [hfind]
    dsimp only
    rw [hmod]
  have hids : ((regenerateApiKey newKey now id s).2).keys.map (fun k => k.id) =
      s.keys.map (fun k => k.id) := by
    rw [hsnd, hdecomp]
    simp
  have hfind' : ((regenerateApiKey newKey now id s).2).keys.find? (fun k => k.id == id) =
      some { r with key := newKey, regeneratedAt := some now } := by
    rw [hsnd]
    show (l₁ ++ _ :: l₂).find? _ = _
    rw [find?_append_of_forall_neg hpre, List.find?_cons_of_pos _ (by simpa using hpa)]
  have hvalOld : validateApiKey masterKey now r.key (regenerateApiKey newKey now id s).2 =
      (none, (regenerateApiKey newKey now id s).2) := by
    unfold validateApiKey
    rw [if_neg (fun h => hmold h.2)]
    have hnone : ((regenerateApiKey newKey now id s).2).keys.find?
        (fun k => k.key == r.key && k.active) = none := by
      rw [hsnd, List.find?_eq_none]
      intro x hx
      rcases List.mem_append.mp hx with h1 | h2
      · simp [hA x h1]
      · rcases List.mem_cons.mp h2 with rfl | h2
        · intro hpx
          simp only [Bool.and_eq_true, beq_iff_eq] at hpx
          exact hrknew hpx.1.symm
        · simp [hB x h2]
    rw [hnone]
  have hvalNew : (validateApiKey masterKey now newKey (regenerateApiKey newKey now id s).2).1.isSome = true := by
    unfold validateApiKey
    rw [if_neg (fun h => hmnew h.2)]
    have hsome : ((regenerateApiKey newKey now id s).2).keys.find?
        (fun k => k.key == newKey && k.active) =
        some { r with key := newKey, regeneratedAt := some now } := by
      rw [hsnd]
      show (l₁ ++ _ :: l₂).find? _ = _
      rw [find?_append_of_forall_neg (fun x hx => by
            simp [hkey_ne_new x (hmem₁ x hx)]),
          List.find?_cons_of_pos _ (by simp [hact])]
    rw [hsome]
    dsimp only
    rw [if_neg (by simpa [isExpired] using hexp)]
    rfl
  have hlist : (listApiKeys false (regenerateApiKey newKey now id s).2).map (fun e => e.key) =
      ((regenerateApiKey newKey now id s).2).keys.map (fun k => maskKey k.key) := by
    simp [listApiKeys, List.map_map, Function.comp]
  exact ⟨hfst, hids, hfind', hvalOld, hvalNew, hlist, maskKey_ne_self hlen⟩

theorem regenerate_invalidates_old_secret_witness :
    (storeLive.keys.find? (fun k => k.id == "id1") = some recLive ∧
     recLive.active = true ∧
     isExpired 7 recLive = false ∧
     (storeLive.keys.map (fun k => k.key)).Nodup ∧
     ("wapi_newkey_9876543210" : String) ∉ storeLive.keys.map (fun k => k.key) ∧
     recLive.key ≠ "mastersecret" ∧
     ("wapi_newkey_9876543210" : String) ≠ "mastersecret" ∧
     19 < ("wapi_newkey_9876543210" : String).length) ∧
    ((regenerateApiKey "wapi_newkey_9876543210" 7 "id1" storeLive).1 =
       RegenResult.success "API Key regenerada correctamente" "wapi_newkey_9876543210" ∧
     ((regenerateApiKey "wapi_newkey_9876543210" 7 "id1" storeLive).2).keys.map (fun k => k.id) =
       storeLive.keys.map (fun k => k.id) ∧
     ((regenerateApiKey "wapi_newkey_9876543210" 7 "id1" storeLive).2).keys.find? (fun k => k.id == "id1") =
       some { recLive with key := "wapi_newkey_9876543210", regeneratedAt := some 7 } ∧
     validateApiKey "mastersecret" 7 recLive.key (regenerateApiKey "wapi_newkey_9876543210" 7 "id1" storeLive).2 =
       (none, (regenerateApiKey "wapi_newkey_9876543210" 7 "id1" storeLive).2) ∧
     (validateApiKey "mastersecret" 7 "wapi_newkey_9876543210" (regenerateApiKey "wapi_newkey_9876543210" 7 "id1" storeLive).2).1.isSome = true ∧
     (listApiKeys false (regenerateApiKey "wapi_newkey_9876543210" 7 "id1" storeLive).2).map (fun e => e.key) =
       ((regenerateApiKey "wapi_newkey_9876543210" 7 "id1" storeLive).2).keys.map (fun k => maskKey k.key) ∧
     maskKey "wapi_newkey_9876543210" ≠ "wapi_newkey_9876543210") :=
  ⟨⟨by decide, by decide, by decide, by decide, by decide, by decide, by decide, by decide⟩,
   regenerate_invalidates_old_secret "mastersecret" "wapi_newkey_9876543210" 7 "id1"
     storeLive recLive (by decide) (by decide) (by decide) (by decide) (by decide)
     (by decide) (by decide) (by decide)⟩

theorem tryCatchLog_ok {ε : Type} (act : Except ε Unit) :
    tryCatchLog act = Except.ok () := by
  cases act <;> rfl

theorem runForEach_all_ok {α ε σ : Type} (data : α) (hs : List (α → Except ε σ))
    (hok : ∀ h ∈ hs, ∃ v, h data = Except.ok v) :
    runForEach data hs = (hs.map (fun h => h data), false) := by
  induction hs with
  | nil => rfl
  | cons h t ih =>
    obtain ⟨v, hv⟩ := hok h (List.mem_cons_self _ _)
    simp [runForEach, hv, ih (fun g hg => hok g (List.mem_cons_of_mem _ hg))]

/-- C4 counterexample: with two subscribers registered for `qr`, the first of
which throws synchronously, `emit` invokes only the first — contradicting
the claim that every registered subscriber is invoked and that one
subscriber's thrown failure does not prevent the invocation of the later
ones. -/
theorem emit_abort_counterexample :
    ¬ (∀ (bus : EventBus Nat String Unit) (event : String) (data : Nat),
        ((emit bus event data).1).length = (handlersFor bus event).length) := by
  intro h
  have h2 := h [("qr", [fun _ => Except.error "boom", fun _ => Except.ok ()])] "qr" 0
  simp [emit, handlersFor, runForEach, List.lookup] at h2

/-- C4 amended: `emit` invokes the subscribers registered for the event
synchronously in registration order as long as none of them throws — one
thrown failure aborts the rest — and the forwarding callbacks installed by
webhook registration swallow every delivery failure (returning normally),
so for them no failure ever prevents the invocation of later
subscribers. -/
theorem emit_in_order_and_forwarding_never_throws
    (bus : EventBus WData String Unit) (event : String) (data : WData)
    (hok : ∀ h ∈ handlersFor bus event, ∃ v, h data = Except.ok v) :
    emit bus event data = ((handlersFor bus event).map (fun h => h data), false) ∧
    ∀ (registry : List (String × Webhook)) (webhookId : String)
      (deliver : Webhook → WData → Except String Unit) (d : WData),
      forwardingCallback registry webhookId deliver d = Except.ok () := by
  refine ⟨runForEach_all_ok data _ hok, ?_⟩
  intro registry webhookId deliver d
  unfold forwardingCallback
  exact tryCatchLog_ok _

theorem emit_in_order_and_forwarding_never_throws_witness :
    (∀ h ∈ handlersFor
        [("qr", [fun _ => Except.ok (), fun _ => (Except.ok () : Except String Unit)])] "qr",
      ∃ v, h WData.jnull = Except.ok v) ∧
    (emit [("qr", [fun _ => Except.ok (), fun _ => (Except.ok () : Except String Unit)])] "qr" WData.jnull =
      ((handlersFor [("qr", [fun _ => Except.ok (), fun _ => (Except.ok () : Except String Unit)])] "qr").map
        (fun h => h WData.jnull), false) ∧
     ∀ (registry : List (String × Webhook)) (webhookId : String)
       (deliver : Webhook → WData → Except String Unit) (d : WData),
       forwardingCallback registry webhookId deliver d = Except.ok ()) :=
  have hok : ∀ h ∈ handlersFor
      [("qr", [fun _ => Except.ok (), fun _ => (Except.ok () : Except String Unit)])] "qr",
      ∃ v, h WData.jnull = Except.ok v := by
    intro h hm
    simp [handlersFor, List.lookup] at hm
    subst hm
    exact ⟨(), rfl⟩
  ⟨hok, emit_in_order_and_forwarding_never_throws _ "qr" WData.jnull hok⟩

/-- C5 counterexample: a register request whose url passes the library URL
check but whose events list `["bogus"]` is not a subset of the vocabulary
still succeeds with 201 and creates a registration — contradicting the
claim that such a request fails validation with no registration created. -/
theorem register_vocabulary_unchecked :
    (registerWebhook true 0 "https://example.com" ["bogus"] none ⟨[], []⟩).1.status = 201 ∧
    ("bogus" ∈ eventVocabulary → False) ∧
    ((registerWebhook true 0 "https://example.com" ["bogus"] none ⟨[], []⟩).2).webhooks ≠ [] :=
  ⟨rfl, by decide, by decide⟩

/-- C5 amended: `POST /register` succeeds (201) precisely when the url
passes the express-validator URL check and the events array is non-empty —
membership of the events in the documented vocabulary is not checked; on
failure the response is a 400 and the state is unchanged (no registration
created); on success exactly one active registration is appended and one
forwarding subscription is recorded per listed event, in order. -/
theorem register_checks_url_and_nonempty (urlValid : Bool) (now : Nat)
    (url : String) (events : List String) (secret : Option String)
    (st : WebhookState) :
    ((registerWebhook urlValid now url events secret st).1.status = 201 ↔
      urlValid = true ∧ events ≠ []) ∧
    ((registerWebhook urlValid now url events secret st).1.status ≠ 201 →
      (registerWebhook urlValid now url events secret st).1.status = 400 ∧
      (registerWebhook urlValid now url events secret st).2 = st) ∧
    ((registerWebhook urlValid now url events secret st).1.status = 201 →
      (registerWebhook urlValid now url events secret st).2.webhooks =
        st.webhooks ++ [("wh_" ++ toString now,
          { id := "wh_" ++ toString now, url := url, events := events,
            secret := secret, createdAt := now, active := true })] ∧
      (registerWebhook urlValid now url events secret st).2.subs =
        st.subs ++ events.map (fun e => (e, "wh_" ++ toString now))) := by
  cases urlValid <;> rcases events with _ | ⟨e, es⟩ <;>
    simp [registerWebhook]

/-- C6: when the registration carries a (truthy) secret, the attached
signature is exactly the keyed hash of the serialized envelope string that
is sent as the request body, so a verifier recomputing the hash over the
received body and the shared secret obtains a match; and — under the
collision-freeness the keyed hash is relied upon for — any change to the
body makes the recomputed value differ from the attached signature. -/
theorem webhook_signature_covers_exact_body
    (hmacHex : String → String → String) (stringify : Envelope → String)
    (now : Nat) (wh : Webhook) (event : String) (data : WData) (sec : String)
    (hs : wh.secret = some sec) (hne : sec ≠ "")
    (hinj : Function.Injective (hmacHex sec)) :
    (sendWebhookNotification hmacHex stringify now wh event data).signature =
      some (hmacHex sec (sendWebhookNotification hmacHex stringify now wh event data).body) ∧
    ∀ body', body' ≠ (sendWebhookNotification hmacHex stringify now wh event data).body →
      hmacHex sec body' ≠
        hmacHex sec (sendWebhookNotification hmacHex stringify now wh event data).body := by
  constructor
  · simp [sendWebhookNotification, jsTruthyStr, hs, hne]
  · intro body' hb he
    exact hb (hinj he)

theorem webhook_signature_covers_exact_body_witness :
    (({ id := "wh_1", url := "https://example.com", events := ["message"],
        secret := some "sec", createdAt := 0, active := true } : Webhook).secret = some "sec" ∧
     ("sec" : String) ≠ "" ∧
     Function.Injective (fun m => (m : String))) ∧
    ((sendWebhookNotification (fun _ m => m) (fun _ => "{}") 0
        { id := "wh_1", url := "https://example.com", events := ["message"],
          secret := some "sec", createdAt := 0, active := true } "message" WData.jnull).signature =
      some ((fun _ m => m) "sec"
        (sendWebhookNotification (fun _ m => m) (fun _ => "{}") 0
          { id := "wh_1", url := "https://example.com", events := ["message"],
            secret := some "sec", createdAt := 0, active := true } "message" WData.jnull).body) ∧
     ∀ body', body' ≠ (sendWebhookNotification (fun _ m => m) (fun _ => "{}") 0
          { id := "wh_1", url := "https://example.com", events := ["message"],
            secret := some "sec", createdAt := 0, active := true } "message" WData.jnull).body →
       (fun _ m => m) "sec" body' ≠ (fun _ m => m) "sec"
         (sendWebhookNotification (fun _ m => m) (fun _ => "{}") 0
           { id := "wh_1", url := "https://example.com", events := ["message"],
             secret := some "sec", createdAt := 0, active := true } "message" WData.jnull).body) :=
  have hinj : Function.Injective (fun m => (m : String)) := fun _ _ h => h
  ⟨⟨rfl, by decide, hinj⟩,
   webhook_signature_covers_exact_body (fun _ m => m) (fun _ => "{}") 0
     { id := "wh_1", url := "https://example.com", events := ["message"],
       secret := some "sec", createdAt := 0, active := true } "message" WData.jnull "sec"
     rfl (by decide) hinj⟩

theorem bulkLoop_fst (send : String → Except String Unit) (all rest : List String) :
    (bulkLoop send all rest).1 = rest.map (fun phone =>
      match send phone with
      | .ok _ => ({ phone := phone, success := true, error := none } : BulkOutcome)
      | .error e => { phone := phone, success := false, error := some e }) := by
  induction rest with
  | nil => rfl
  | cons a t ih =>
    cases ha : send a <;> simp [bulkLoop, ha, ih]

theorem bulkAggregate_of_outcomes (send : String → Except String Unit)
    (l : List String) :
    bulkAggregate (l.map (fun phone =>
      match send phone with
      | .ok _ => ({ phone := phone, success := true, error := none } : BulkOutcome)
      | .error e => { phone := phone, success := false, error := some e })) =
    ((l.filter (fun p => match send p with | .ok _ => true | .error _ => false)).length,
     (l.filter (fun p => match send p with | .ok _ => false | .error _ => true)).length) := by
  induction l with
  | nil => rfl
  | cons a t ih =>
    have ih1 := congrArg Prod.fst ih
    have ih2 := congrArg Prod.snd ih
    dsimp at ih1 ih2
    cases ha : send a <;>
      simp [bulkAggregate, List.filter_cons, ha] <;>
      simp [bulkAggregate] at ih1 ih2 <;>
      omega

/-- C8: `sendBulkMessages` over a list of 1 to 100 recipients attempts each
recipient in list order, records a failed send as
`{phone, success:false, error}` without aborting the rest, and the result
is the per-recipient outcome list in input order, whose aggregate
success/failure counts equal the number of recipients whose send succeeded
and failed respectively. -/
theorem bulk_outcomes_in_order (send : String → Except String Unit)
    (recipients : List String)
    (hlen : 1 ≤ recipients.length ∧ recipients.length ≤ 100) :
    (sendBulkMessages send recipients).1 = recipients.map (fun phone =>
      match send phone with
      | .ok _ => ({ phone := phone, success := true, error := none } : BulkOutcome)
      | .error e => { phone := phone, success := false, error := some e }) ∧
    bulkAggregate (sendBulkMessages send recipients).1 =
      ((recipients.filter (fun p => match send p with | .ok _ => true | .error _ => false)).length,
       (recipients.filter (fun p => match send p with | .ok _ => false | .error _ => true)).length) := by
  refine ⟨bulkLoop_fst send recipients recipients, ?_⟩
  rw [sendBulkMessages, bulkLoop_fst send recipients recipients]
  exact bulkAggregate_of_outcomes send recipients

theorem bulk_outcomes_in_order_witness :
    (1 ≤ (["3001111111", "3002222222", "3003333333"] : List String).length ∧
     (["3001111111", "3002222222", "3003333333"] : List String).length ≤ 100) ∧
    ((sendBulkMessages
        (fun p => if p = "3002222222" then Except.error "fallo" else Except.ok ())
        ["3001111111", "3002222222", "3003333333"]).1 =
      (["3001111111", "3002222222", "3003333333"] : List String).map (fun phone =>
        match (fun p => if p = "3002222222" then Except.error "fallo" else Except.ok ()) phone with
        | .ok _ => ({ phone := phone, success := true, error := none } : BulkOutcome)
        | .error e => { phone := phone, success := false, error := some e }) ∧
     bulkAggregate (sendBulkMessages
        (fun p => if p = "3002222222" then Except.error "fallo" else Except.ok ())
        ["3001111111", "3002222222", "3003333333"]).1 =
      (((["3001111111", "3002222222", "3003333333"] : List String).filter
          (fun p => match (fun p => if p = "3002222222" then Except.error "fallo" else Except.ok ()) p with
            | .ok _ => true | .error _ => false)).length,
       ((["3001111111", "3002222222", "3003333333"] : List String).filter
          (fun p => match (fun p => if p = "3002222222" then Except.error "fallo" else Except.ok ()) p with
            | .ok _ => false | .error _ => true)).length)) :=
  ⟨by decide,
   bulk_outcomes_in_order
     (fun p => if p = "3002222222" then Except.error "fallo" else Except.ok ())
     ["3001111111", "3002222222", "3003333333"] (by decide)⟩

/-- C9: evaluating `sendBulkMessages` at the duplicate recipient list
`["3001234567", "3001234567"]` shows the delay awaited twice — once after
the final send as well — although the claim mandates exactly
`length - 1 = 1` awaits and none after the last: the guard
`recipients.indexOf(phone) < recipients.length - 1` resolves the duplicate
last recipient to its first index. -/
theorem bulk_delay_after_last_on_duplicates :
    (sendBulkMessages (fun _ => Except.ok ()) ["3001234567", "3001234567"]).2 = 2 ∧
    (["3001234567", "3001234567"] : List String).length - 1 = 1 := by
  exact ⟨by decide, by decide⟩
